import Mathlib

/-
Shallow embedding of the modorganizer-overlayfs mount orchestrator
(src/src/overlayfsmanager.cpp, src/include/overlayfs/overlayfsmanager.h).

Modelling conventions:
* An absolute filesystem path is its cleaned list of components
  (`["d", "x"]` stands for `/d/x`); `QString` concatenation such as
  `destination % "/" % source` on absolute arguments therefore becomes list
  append after cleaning (the doubled separator `"/d" + "/" + "/s/x" = "/d//s/x"`
  cleans to `/d/s/x`, i.e. the component lists concatenated).
* All interactions with the operating system (directory trees on disk,
  stat/size results, success of mkdir/mknod/rename/symlink/remove, and the
  exit status of the spawned `fuse-overlayfs` and `fusermount` processes) are
  an explicit environment `Env` of oracles, so that every execution path of
  the C++ is reachable in the model.
* Every operation additionally returns the list of `Effect`s it performed on
  the world outside the manager object (files or directories created, removed,
  renamed, external processes invoked), in order.  Logging is not modelled.
* The two mutexes only serialise calls; the public entry points
  `mount`/`umount` are modelled directly by the locked bodies
  `mountInternal`/`umountInternal`.
-/

namespace OverlayFs

/-- An absolute path, as its cleaned list of components (`[]` is the root). -/
abbrev Path := List String

/-- A directory tree on disk, used to model what
`QDirIterator(path, QDirIterator::Subdirectories)` enumerates below a source
directory. -/
inductive FSTree where
  | file (name : String)
  | dir (name : String) (children : List FSTree)

/-- One element of `m_mounts` (`overlayFsData_t`, overlayfsmanager.h:144-153).
`workDir` holds the path of the `QTemporaryDir` allocated by the planner;
`whiteout` entries are the relative paths computed at plan time (they may
contain literal `"."` or `".."` components, exactly as the code computes
them). -/
structure OverlayFsData where
  target : Path
  upperDir : Path
  workDir : Path
  lowerDirs : List Path
  whiteout : List (List String)
  mounted : Bool
deriving DecidableEq, Repr

/-- The mutable fields of `OverlayFsManager` that the mount/umount engine
reads or writes (overlayfsmanager.h:180-207).  `upperDirSetting` is
`m_upperDir` (`[]` when unset); logging and process-supervision fields are
omitted. -/
structure MgrState where
  map : List (Path × Path)
  fileMap : List (Path × Path)
  fileSuffixBlacklist : List String
  directoryBlacklist : List String
  upperDirSetting : Path
  mounts : List OverlayFsData
  createdWhiteoutFiles : List Path
  createdDirectories : List Path
  createdSymlinks : List Path
  mounted : Bool
deriving DecidableEq, Repr

/-- A freshly constructed manager (all registries empty, not mounted). -/
def initialState : MgrState :=
  { map := [], fileMap := [], fileSuffixBlacklist := [], directoryBlacklist := [],
    upperDirSetting := [], mounts := [], createdWhiteoutFiles := [],
    createdDirectories := [], createdSymlinks := [], mounted := false }

/-- Actions performed on the world outside the manager object, in the order
the code performs them. -/
inductive Effect where
  | mkTempDir (path : Path)
  | mkdir (path : Path)
  | mknod (path : Path)
  | renameFile (source target : Path)
  | symlink (target linkName : Path)
  | runHelper (args : List String)
  | runFusermount (target : Path)
  | removeFile (path : Path)
  | removeDir (path : Path)
  | restoreRename (source target : Path)
deriving DecidableEq, Repr

/-- True for the temporary-workdir allocation performed by the planner. -/
def Effect.isTempDirCreation : Effect → Bool
  | .mkTempDir _ => true
  | _ => false

/-- True for the effects Cleanup/umount would perform: removals, restores of
renamed originals, and `fusermount` invocations. -/
def Effect.isReversal : Effect → Bool
  | .removeFile _ => true
  | .removeDir _ => true
  | .restoreRename _ _ => true
  | .runFusermount _ => true
  | _ => false

/-- Oracles describing the operating system: what is on disk and whether each
OS-level operation the manager attempts succeeds. -/
structure Env where
  disk : Path → List FSTree
  statIsDir : Path → Bool
  statExists : Path → Bool
  mkpathOk : Path → Bool
  renameOk : Path → Bool
  symlinkOk : Path → Bool
  dirOnDisk : Path → Bool
  mkdirOk : Path → Bool
  mknodOk : Path → Bool
  helperOk : Path → Bool
  fusermountOk : Path → Bool
  sizeOnDisk : Path → Nat
  removeFileOk : Path → Bool
  removeDirOk : Path → Bool
  renamedOnDisk : Path → Bool
  renameBackOk : Path → Bool

/-- The path's textual form (components joined by `/` after a leading `/`),
used to model `QString` ordering and option strings. -/
def pathStr (p : Path) : String := "/" ++ String.intercalate "/" p

/-- Lexicographic order on the characters of two strings, by code point;
models the `QString::operator<` ordering of a `std::set<QString>` (path
strings here only hold characters of the basic plane, where code-unit and
code-point order agree). -/
def charListLt : List Char → List Char → Bool
  | _, [] => false
  | [], _ :: _ => true
  | a :: as, b :: bs =>
    if a.toNat < b.toNat then true
    else if b.toNat < a.toNat then false
    else charListLt as bs

/-- Insert a path into a list kept in the strict ascending order of
`std::set<QString>` (lexicographic on the path string), dropping duplicates. -/
def insertSorted (x : Path) : List Path → List Path
  | [] => [x]
  | y :: ys =>
    if pathStr x = pathStr y then y :: ys
    else if charListLt (pathStr x).data (pathStr y).data then x :: y :: ys
    else y :: insertSorted x ys

/-- The iteration order of a `std::set<QString>` built from the given paths. -/
def sortedUnique (ps : List Path) : List Path :=
  ps.foldl (fun acc p => insertSorted p acc) []

/-- Length of the longest common component run of two paths. -/
def commonPrefixLen : List String → List String → Nat
  | a :: as, b :: bs => if a = b then commonPrefixLen as bs + 1 else 0
  | _, _ => 0

/-- Model of `QDir::relativeFilePath` (receiver `dirPath`, argument
`filePath`, both absolute and clean): strip the common run of components,
then one `".."` per remaining receiver component followed by the remaining
argument components; an empty result is returned as `"."`. -/
def relativeFilePath (dirPath filePath : Path) : List String :=
  let n := commonPrefixLen dirPath filePath
  let result := List.replicate (dirPath.length - n) ".." ++ filePath.drop n
  if result.isEmpty then ["."] else result

/-- Model of `QString::endsWith` (case sensitive). -/
def endsWithQ (name sfx : String) : Bool := sfx.data.isSuffixOf name.data

/-- Path of the directory the planner's
`QTemporaryDir(upperDir % "_tmp_XXXXXX")` creates
(overlayfsmanager.cpp:483): a sibling of `p` whose last component carries the
template suffix; the random replacement of the six `X` is modelled by keeping
the placeholder. -/
def tmpDirName (p : Path) : Path :=
  p.dropLast ++ [((p.getLast?).getD "") ++ "_tmp_XXXXXX"]

/-- Path of the rename-aside backup: the literal suffix `.mo-renamed`
(overlayfsmanager.cpp:30) appended to the last component. -/
def renamedName (p : Path) : Path :=
  p.dropLast ++ [((p.getLast?).getD "") ++ ".mo-renamed"]

mutual
/-- Entries below one tree node as yielded by a recursive `QDirIterator`
with default filters: the node itself, its `"."` and `".."` entries when it
is a directory, and its subtree in preorder, each as (path relative to the
iteration root, is-directory). -/
def FSTree.entries : FSTree → List (List String × Bool)
  | .file n => [([n], false)]
  | .dir n cs =>
    ([n], true) :: ([n, "."], true) :: ([n, ".."], true) ::
      (entriesList cs).map (fun pb => (n :: pb.1, pb.2))

/-- Entries of a list of sibling trees, in order. -/
def entriesList : List FSTree → List (List String × Bool)
  | [] => []
  | t :: ts => FSTree.entries t ++ entriesList ts
end

/-- All entries yielded by `QDirIterator(srcPath, Subdirectories)` with the
default `QDir::NoFilter` filters, given the children of `srcPath`: the
root's own `"."` and `".."` entries and every descendant (the `"."` and
`".."` entries of each visited subdirectory included). -/
def iterEntries (children : List FSTree) : List (List String × Bool) :=
  (["."], true) :: ([".."], true) :: entriesList children

/-- The whiteout entries the planner collects from one iterator pass
(overlayfsmanager.cpp:450-469).  For a directory entry the code tests
`info.dir().dirName()` — the leaf name of the entry's PARENT — against the
directory blacklist; for a file entry it tests the file name against every
suffix, appending once per matching suffix.  In both branches the recorded
path is `info.dir().relativeFilePath(srcPath)`: the path of `srcPath`
relative to the entry's parent directory. -/
def whiteoutScan (s : MgrState) (srcPath : Path) :
    List (List String × Bool) → List (List String)
  | [] => []
  | (rel, isDirEntry) :: rest =>
    (if isDirEntry then
      let parentDir := (srcPath ++ rel).dropLast
      if s.directoryBlacklist.contains ((parentDir.getLast?).getD "") then
        [relativeFilePath parentDir srcPath]
      else []
    else
      s.fileSuffixBlacklist.filterMap fun sfx =>
        if endsWithQ (((srcPath ++ rel).getLast?).getD "") sfx then
          some (relativeFilePath (srcPath ++ rel).dropLast srcPath)
        else none)
    ++ whiteoutScan s srcPath rest

/-- Whiteouts contributed by one source directory. -/
def whiteoutsFor (env : Env) (s : MgrState) (srcPath : Path) : List (List String) :=
  whiteoutScan s srcPath (iterEntries (env.disk srcPath))

/-- One step of the per-destination classification loop
(overlayfsmanager.cpp:437-471): a source matching the destination is adopted
as upper dir when `m_upperDir` is unset and its leaf name is literally
`overwrite`, otherwise appended to the lower dirs; in either case its
whiteouts are collected.  The accumulator is (upper dir so far, lower dirs,
whiteouts). -/
def classifyStep (env : Env) (s : MgrState) (dstDir : Path)
    (acc : Path × List Path × List (List String)) (e : Path × Path) :
    Path × List Path × List (List String) :=
  if e.2 == dstDir then
    let srcPath := e.1
    let acc1 :=
      if s.upperDirSetting.isEmpty && (srcPath.getLast? == some "overwrite") then
        (srcPath, acc.2.1, acc.2.2)
      else (acc.1, acc.2.1 ++ [srcPath], acc.2.2)
    (acc1.1, acc1.2.1, acc1.2.2 ++ whiteoutsFor env s srcPath)
  else acc

/-- The classification loop over the registered directory mappings, in
registration order. -/
def classifyGo (env : Env) (s : MgrState) (dstDir : Path) :
    List (Path × Path) → Path × List Path × List (List String) →
    Path × List Path × List (List String)
  | [], acc => acc
  | e :: rest, acc => classifyGo env s dstDir rest (classifyStep env s dstDir acc e)

/-- The plan entry the planner builds for one destination
(overlayfsmanager.cpp:432-486): classify the sources, fall back to the
target itself when no upper dir was adopted, reverse the lower dirs, and
name the temporary workdir. -/
def planForDest (env : Env) (s : MgrState) (dstDir : Path) : OverlayFsData :=
  let acc := classifyGo env s dstDir s.map ([], [], [])
  let upperDir := if acc.1.isEmpty then dstDir else acc.1
  { target := dstDir, upperDir := upperDir, workDir := tmpDirName upperDir,
    lowerDirs := acc.2.1.reverse, whiteout := acc.2.2, mounted := false }

/-- Model of `OverlayFsManager::prepareMounts` (overlayfsmanager.cpp:407-490):
fail when some source path is also a destination path, otherwise append one
plan entry per destination (in `std::set` order) to `m_mounts`, creating one
temporary workdir on disk per entry. -/
def prepareMounts (env : Env) (s : MgrState) : Bool × MgrState × List Effect :=
  let srcs := sortedUnique (s.map.map (·.1))
  let dsts := sortedUnique (s.map.map (·.2))
  if srcs.any (fun src => dsts.contains src) then (false, s, [])
  else
    let newEntries := dsts.map (planForDest env s)
    (true, { s with mounts := s.mounts ++ newEntries },
      newEntries.map (fun e => Effect.mkTempDir e.workDir))

/-- Model of `OverlayFsManager::createSymlinks` (overlayfsmanager.cpp:492-528),
iterating the file mappings in registration order.  When the destination
exists it is renamed aside first; a failed rename or a failed link aborts
with `false` (the aside rename, if already done, is left in place and
recorded nowhere).  Each successfully created link is recorded in
`m_createdSymlinks`. -/
def createSymlinksGo (env : Env) :
    List (Path × Path) → MgrState → List Effect → Bool × MgrState × List Effect
  | [], st, effs => (true, st, effs)
  | (source, destination) :: rest, st, effs =>
    let linkTarget := source
    let linkName := destination
    if env.statExists destination then
      if env.renameOk linkName then
        if env.symlinkOk linkName then
          createSymlinksGo env rest
            { st with createdSymlinks := st.createdSymlinks ++ [linkName] }
            (effs ++ [Effect.renameFile linkName (renamedName linkName),
                      Effect.symlink linkTarget linkName])
        else (false, st, effs ++ [Effect.renameFile linkName (renamedName linkName)])
      else (false, st, effs)
    else
      if env.symlinkOk linkName then
        createSymlinksGo env rest
          { st with createdSymlinks := st.createdSymlinks ++ [linkName] }
          (effs ++ [Effect.symlink linkTarget linkName])
      else (false, st, effs)

/-- Entry point of the symlink materialiser. -/
def createSymlinks (env : Env) (s : MgrState) : Bool × MgrState × List Effect :=
  createSymlinksGo env s.fileMap s []

/-- Model of `OverlayFsManager::createDirectories` (overlayfsmanager.cpp:766-792)
applied to the path chunks the `find_first_of('/')` loop scans: for the
absolute path `/c1/.../cn` these are the text before the leading slash — the
empty string — and each `/c1/.../ck` for `k < n` (the full path itself is
never scanned).  `std::filesystem::exists("")` is false and
`std::filesystem::create_directory("")` always fails with ENOENT, so the
empty chunk fails unconditionally.  Each directory actually created is
recorded in `m_createdDirectories`. -/
def createDirsGo (env : Env) :
    List Path → MgrState → List Effect → Bool × MgrState × List Effect
  | [], st, effs => (true, st, effs)
  | seg :: rest, st, effs =>
    if seg.isEmpty then (false, st, effs)
    else if env.dirOnDisk seg then createDirsGo env rest st effs
    else if env.mkdirOk seg then
      createDirsGo env rest
        { st with createdDirectories := st.createdDirectories ++ [seg] }
        (effs ++ [Effect.mkdir seg])
    else (false, st, effs)

/-- Entry point of the recursive directory creation: scan the chunks of `p`
in order (see `createDirsGo`). -/
def createDirectories (env : Env) (st : MgrState) (p : Path) :
    Bool × MgrState × List Effect :=
  createDirsGo env ((List.range p.length).map fun k => p.take k) st []

/-- The whiteout-creation loop of one plan entry
(overlayfsmanager.cpp:617-637): skipped with only a warning when the upper
dir is empty but whiteouts exist; otherwise each whiteout file
`upperDir/<w>` gets its parent directories created and is then created by
`mknod` as a 0/0 character device and recorded in `m_createdWhiteoutFiles`. -/
def createWhiteoutsGo (env : Env) (m : OverlayFsData) :
    List (List String) → MgrState → List Effect → Bool × MgrState × List Effect
  | [], st, effs => (true, st, effs)
  | w :: rest, st, effs =>
    let whiteoutPath := m.upperDir ++ w
    let r := createDirectories env st whiteoutPath.dropLast
    if !r.1 then (false, r.2.1, effs ++ r.2.2)
    else if env.mknodOk whiteoutPath then
      createWhiteoutsGo env m rest
        { r.2.1 with createdWhiteoutFiles := r.2.1.createdWhiteoutFiles ++ [whiteoutPath] }
        (effs ++ r.2.2 ++ [Effect.mknod whiteoutPath])
    else (false, r.2.1, effs ++ r.2.2)

/-- Whiteout creation for one plan entry, with the empty-upper-dir warning
branch. -/
def createWhiteouts (env : Env) (s : MgrState) (m : OverlayFsData) :
    Bool × MgrState × List Effect :=
  if m.upperDir.isEmpty && !m.whiteout.isEmpty then (true, s, [])
  else createWhiteoutsGo env m m.whiteout s []

/-- The colon-joined `lowerdir=` value built at overlayfsmanager.cpp:609-615:
every lower dir followed by a colon, then the target. -/
def mkLowerDirsStr (m : OverlayFsData) : String :=
  (m.lowerDirs.foldl (fun acc d => acc ++ (pathStr d ++ ":")) "") ++ pathStr m.target

/-- The argument list passed to `fuse-overlayfs`
(overlayfsmanager.cpp:644-652): `--debug`, then `-o upperdir=… -o workdir=…`
only when the upper dir is non-empty, then `-o lowerdir=…` and the target. -/
def mkMountArgs (m : OverlayFsData) : List String :=
  ["--debug"] ++
  (if m.upperDir.isEmpty then [] else
    ["-o", "upperdir=" ++ pathStr m.upperDir, "-o", "workdir=" ++ pathStr m.workDir]) ++
  ["-o", "lowerdir=" ++ mkLowerDirsStr m] ++ [pathStr m.target]

/-- Model of `OverlayFsManager::isAnythingMounted`
(overlayfsmanager.cpp:754-759). -/
def isAnythingMounted (ms : List OverlayFsData) : Bool := ms.any (·.mounted)

/-- The per-entry mount loop (overlayfsmanager.cpp:608-682): create the
whiteouts, invoke the helper, and on success flag the entry mounted; any
failure returns immediately, leaving the already processed entries flagged
and the rest untouched.  Returns (success, state, final `m_mounts`,
effects). -/
def mountLoop (env : Env) :
    List OverlayFsData → MgrState → List OverlayFsData → List Effect →
    Bool × MgrState × List OverlayFsData × List Effect
  | [], st, done, effs => (true, st, done, effs)
  | m :: rest, st, done, effs =>
    let r := createWhiteouts env st m
    if !r.1 then (false, r.2.1, done ++ (m :: rest), effs ++ r.2.2)
    else
      let effs2 := effs ++ r.2.2 ++ [Effect.runHelper (mkMountArgs m)]
      if env.helperOk m.target then
        mountLoop env rest r.2.1 (done ++ [{ m with mounted := true }]) effs2
      else (false, r.2.1, done ++ (m :: rest), effs2)

/-- Model of `OverlayFsManager::mountInternal` (overlayfsmanager.cpp:585-686):
no-op success when already mounted; refusal when a partial mount is
detected; otherwise plan, materialise symlinks, and run the mount loop,
setting the manager-level flag only after every entry mounted.  No failure
path invokes `cleanup`. -/
def mountInternal (env : Env) (s : MgrState) : Bool × MgrState × List Effect :=
  if s.mounted then (true, s, [])
  else if isAnythingMounted s.mounts then (false, s, [])
  else
    let r1 := prepareMounts env s
    if !r1.1 then (false, r1.2.1, r1.2.2)
    else
      let r2 := createSymlinks env r1.2.1
      if !r2.1 then (false, r2.2.1, r1.2.2 ++ r2.2.2)
      else
        let r3 := mountLoop env r2.2.1.mounts r2.2.1 [] []
        let s4 := { r3.2.1 with mounts := r3.2.2.1 }
        if !r3.1 then (false, s4, r1.2.2 ++ r2.2.2 ++ r3.2.2.2)
        else (true, { s4 with mounted := true }, r1.2.2 ++ r2.2.2 ++ r3.2.2.2)

/-- The whiteout deletions `umountInternal` performs for one unmounted entry
(overlayfsmanager.cpp:724-744): each zero-sized whiteout file under the
entry's upper dir is removed; a non-zero size or a failed remove is logged
and skipped. -/
def umountWhiteoutEffects (env : Env) (upperDir : Path) :
    List (List String) → List Effect
  | [] => []
  | w :: rest =>
    (if env.sizeOnDisk (upperDir ++ w) ≠ 0 then []
     else if env.removeFileOk (upperDir ++ w) then [Effect.removeFile (upperDir ++ w)]
     else [])
    ++ umountWhiteoutEffects env upperDir rest

/-- The per-entry unmount loop (overlayfsmanager.cpp:702-745): entries not
flagged mounted are skipped; for a mounted entry `fusermount -u` is invoked
and a failure returns `false` immediately, aborting the remaining entries;
on success the entry's flag is cleared and its whiteout files deleted. -/
def umountLoop (env : Env) :
    List OverlayFsData → List OverlayFsData → List Effect →
    Bool × List OverlayFsData × List Effect
  | [], done, effs => (true, done, effs)
  | m :: rest, done, effs =>
    if !m.mounted then umountLoop env rest (done ++ [m]) effs
    else
      let effs1 := effs ++ [Effect.runFusermount m.target]
      if !(env.fusermountOk m.target) then (false, done ++ (m :: rest), effs1)
      else
        umountLoop env rest (done ++ [{ m with mounted := false }])
          (effs1 ++ umountWhiteoutEffects env m.upperDir m.whiteout)

/-- Removals of the journalled whiteout files in `cleanup`
(overlayfsmanager.cpp:532-542): files of non-zero size are reported and
skipped, the rest are removed with the result of `QFile::remove` ignored. -/
def cleanupWhiteoutEffects (env : Env) : List Path → List Effect
  | [] => []
  | f :: rest =>
    (if env.sizeOnDisk f ≠ 0 then []
     else if env.removeFileOk f then [Effect.removeFile f] else [])
    ++ cleanupWhiteoutEffects env rest

/-- Removals of the journalled directories in `cleanup`
(overlayfsmanager.cpp:550-559), already reversed by the caller;
`std::filesystem::remove` only removes empty directories and a failure is
only logged. -/
def cleanupDirEffects (env : Env) : List Path → List Effect
  | [] => []
  | d :: rest =>
    (if env.removeDirOk d then [Effect.removeDir d] else [])
    ++ cleanupDirEffects env rest

/-- Removals of the journalled symlinks in `cleanup`
(overlayfsmanager.cpp:563-581): a failed remove skips the entry (the
original is then not restored); after a successful remove the rename-aside
backup, when present on disk, is renamed back (a failure is only logged). -/
def cleanupSymlinkEffects (env : Env) : List Path → List Effect
  | [] => []
  | f :: rest =>
    (if env.removeFileOk f then
      [Effect.removeFile f] ++
        (if env.renamedOnDisk (renamedName f) then
          (if env.renameBackOk (renamedName f) then
            [Effect.restoreRename (renamedName f) f]
          else [])
        else [])
     else [])
    ++ cleanupSymlinkEffects env rest

/-- Model of `OverlayFsManager::cleanup` (overlayfsmanager.cpp:530-583):
best-effort removal of the journalled whiteout files, then of the created
directories deepest-first, then of the created symlinks with restoration of
renamed originals; all three journal lists are cleared.  `m_mounts` and
`m_mounted` are not touched. -/
def cleanup (env : Env) (s : MgrState) : MgrState × List Effect :=
  ({ s with createdWhiteoutFiles := [], createdDirectories := [],
            createdSymlinks := [] },
    cleanupWhiteoutEffects env s.createdWhiteoutFiles
      ++ cleanupDirEffects env s.createdDirectories.reverse
      ++ cleanupSymlinkEffects env s.createdSymlinks)

/-- Model of `OverlayFsManager::umountInternal`
(overlayfsmanager.cpp:688-752): a no-op success when the manager flag is
clear or no entry is flagged mounted; otherwise run the unmount loop — a
`fusermount` failure returns `false` with the flag still set — and on full
success clear `m_mounts`, run `cleanup`, and clear the flag. -/
def umountInternal (env : Env) (s : MgrState) : Bool × MgrState × List Effect :=
  if !s.mounted || !isAnythingMounted s.mounts then (true, s, [])
  else if s.mounts.isEmpty then (true, s, [])
  else
    let r := umountLoop env s.mounts [] []
    if !r.1 then (false, { s with mounts := r.2.1 }, r.2.2)
    else
      let rc := cleanup env { s with mounts := [] }
      (true, { rc.1 with mounted := false }, r.2.2 ++ rc.2)

/-- Model of `OverlayFsManager::mount` (overlayfsmanager.cpp:303-309): the
locked call to `mountInternal`. -/
def mount (env : Env) (s : MgrState) : Bool × MgrState × List Effect :=
  mountInternal env s

/-- Model of `OverlayFsManager::umount` (overlayfsmanager.cpp:311-317): the
locked call to `umountInternal`. -/
def umount (env : Env) (s : MgrState) : Bool × MgrState × List Effect :=
  umountInternal env s

/-- Model of `OverlayFsManager::isMounted` (overlayfsmanager.cpp:39-44). -/
def isMounted (s : MgrState) : Bool := s.mounted

/-- Model of `OverlayFsManager::dryrun` (overlayfsmanager.cpp:266-301): with
no directory mappings only a log line; otherwise run the planner — whose
plan entries stay appended to `m_mounts` and whose temporary workdirs stay
on disk — and log the plan. -/
def dryrun (env : Env) (s : MgrState) : MgrState × List Effect :=
  if s.map.isEmpty then (s, [])
  else
    let r := prepareMounts env s
    (r.2.1, r.2.2)

/-- Model of `OverlayFsManager::addFile` (overlayfsmanager.cpp:90-120): a
directory source fails; an identical stored pair is a no-op success; when
the destination is a directory the stored destination is
`QFileInfo(destination % "/" % source)` — the full source path appended to
the destination (cleaning the doubled slash), not just its file name. -/
def addFile (env : Env) (s : MgrState) (source destination : Path) :
    Bool × MgrState :=
  if env.statIsDir source then (false, s)
  else if s.fileMap.any (fun e => e.1 == source && e.2 == destination) then (true, s)
  else if env.statIsDir destination then
    (true, { s with fileMap := s.fileMap ++ [(source, destination ++ source)] })
  else (true, { s with fileMap := s.fileMap ++ [(source, destination)] })

/-- Model of `OverlayFsManager::addDirectory` (overlayfsmanager.cpp:122-165):
missing endpoints are created with `mkpath`, non-directory endpoints fail,
an identical stored pair is a no-op success, otherwise the pair is
appended. -/
def addDirectory (env : Env) (s : MgrState) (source destination : Path) :
    Bool × MgrState :=
  if !(env.statExists source) && !(env.mkpathOk source) then (false, s)
  else if env.statExists source && !(env.statIsDir source) then (false, s)
  else if !(env.statExists destination) && !(env.mkpathOk destination) then (false, s)
  else if env.statExists destination && !(env.statIsDir destination) then (false, s)
  else if s.map.any (fun e => e.1 == source && e.2 == destination) then (true, s)
  else (true, { s with map := s.map ++ [(source, destination)] })

/-- Model of `OverlayFsManager::setUpperDir` (overlayfsmanager.cpp:68-88):
the stored value changes only when the directory exists or was successfully
created on request. -/
def setUpperDir (env : Env) (s : MgrState) (directory : Path) (create : Bool) :
    MgrState :=
  if env.statExists directory then { s with upperDirSetting := directory }
  else if create && env.mkpathOk directory then { s with upperDirSetting := directory }
  else s

/-- Model of `OverlayFsManager::addSkipFileSuffix`
(overlayfsmanager.cpp:208-214). -/
def addSkipFileSuffix (s : MgrState) (fileSuffix : String) : MgrState :=
  { s with fileSuffixBlacklist := s.fileSuffixBlacklist ++ [fileSuffix] }

/-- Model of `OverlayFsManager::addSkipDirectory`
(overlayfsmanager.cpp:224-230). -/
def addSkipDirectory (s : MgrState) (directory : String) : MgrState :=
  { s with directoryBlacklist := s.directoryBlacklist ++ [directory] }

/-- The colon-separated chain of the spec's words (`L1:L2:…:target`); joined
from the path strings. -/
def colonChain : List Path → String
  | [] => ""
  | p :: rest => pathStr p ++ (if rest.isEmpty then "" else ":" ++ colonChain rest)

/-- The sources registered for a destination that the classification sends to
the lower-dir stack — every matching source except those promoted to upper
dir — in registration order. -/
def registeredLowers (s : MgrState) (d : Path) : List Path :=
  s.map.filterMap fun e =>
    if e.2 == d
        && !(s.upperDirSetting.isEmpty && (e.1.getLast? == some "overwrite")) then
      some e.1
    else none

/-- The last registered source with the given destination whose leaf name is
literally `overwrite`, considered only while no explicit upper dir is set. -/
def lastOverwriteSource (s : MgrState) (d : Path) : Option Path :=
  if s.upperDirSetting.isEmpty then
    ((s.map.filter fun e =>
        e.2 == d && (e.1.getLast? == some "overwrite")).getLast?).map (·.1)
  else none

/-!  Concrete scenarios used by the counterexamples and witnesses.  Each
scenario state is built from `initialState` through the public mutators, so
it is reachable in the real manager. -/

/-- A benign operating system: every stat succeeds, every path is an existing
directory, every operation and both external helpers succeed, all files are
empty, nothing is on disk below any source. -/
def envBase : Env :=
  { disk := fun _ => [], statIsDir := fun _ => true, statExists := fun _ => true,
    mkpathOk := fun _ => true, renameOk := fun _ => true, symlinkOk := fun _ => true,
    dirOnDisk := fun _ => true, mkdirOk := fun _ => true, mknodOk := fun _ => true,
    helperOk := fun _ => true, fusermountOk := fun _ => true,
    sizeOnDisk := fun _ => 0, removeFileOk := fun _ => true,
    removeDirOk := fun _ => true, renamedOnDisk := fun _ => false,
    renameBackOk := fun _ => true }

/-- A single registered directory mapping `/s -> /d`. -/
def stateOneDir : MgrState := (addDirectory envBase initialState ["s"] ["d"]).2

/-- A successfully mounted manager, obtained by mounting `stateOneDir` in the
benign environment. -/
def stateMounted : MgrState := (mount envBase stateOneDir).2.1

/-- Two directory mappings to two destinations, `/s1 -> /d1` and
`/s2 -> /d2`. -/
def stateTwoDirs : MgrState :=
  (addDirectory envBase (addDirectory envBase initialState ["s1"] ["d1"]).2
    ["s2"] ["d2"]).2

/-- An environment in which the overlay helper succeeds on `/d1` but fails on
`/d2` (exit code 1 on the second destination). -/
def envHelperFailsOnD2 : Env := { envBase with helperOk := fun t => t == ["d1"] }

/-- The manager after the failing `mount()` of the two-destination plan: the
`/d1` entry was mounted, the `/d2` helper invocation failed. -/
def statePartialMount : MgrState := (mount envHelperFailsOnD2 stateTwoDirs).2.1

/-- An environment for the rollback scenario: `/sf` and `/df` are files (not
directories), the overlay helper always fails. -/
def envMountFails : Env :=
  { envBase with statIsDir := fun p => !(p == ["sf"] || p == ["df"]),
                 helperOk := fun _ => false }

/-- One directory mapping `/s -> /d` plus one file mapping `/sf -> /df`
(whose destination `/df` exists as a file). -/
def stateDirAndFile : MgrState :=
  (addFile envMountFails (addDirectory envMountFails initialState ["s"] ["d"]).2
    ["sf"] ["df"]).2

/-- An environment in which `fusermount` always fails. -/
def envFusermountFails : Env := { envBase with fusermountOk := fun _ => false }

/-- `stateOneDir` with the explicit upper dir `/u` set through
`setUpperDir`. -/
def stateWithUpperOverride : MgrState := setUpperDir envBase stateOneDir ["u"] false

/-- A disk on which the source `/s` contains the single file `/s/sub/tmp.bak`. -/
def envBakFile : Env :=
  { envBase with disk := fun p =>
      if p == ["s"] then [FSTree.dir "sub" [FSTree.file "tmp.bak"]] else [] }

/-- `/s -> /d` with the suffix blacklist `[".bak"]`. -/
def stateBakBlacklist : MgrState :=
  addSkipFileSuffix (addDirectory envBakFile initialState ["s"] ["d"]).2 ".bak"

/-- A disk on which the source `/s` contains the directory `/s/.git` with one
file in it. -/
def envGitDir : Env :=
  { envBase with disk := fun p =>
      if p == ["s"] then [FSTree.dir ".git" [FSTree.file "f"]] else [] }

/-- `/s -> /d` with the directory blacklist `[".git"]`. -/
def stateGitBlacklist : MgrState :=
  addSkipDirectory (addDirectory envGitDir initialState ["s"] ["d"]).2 ".git"

/-- An environment in which `/d` is a directory but `/src/config.ini` is a
file. -/
def envFileDest : Env :=
  { envBase with statIsDir := fun p => p == ["d"] }

/-! Helper lemmas about the classification fold. -/

theorem lastMapGetD {α β : Type} (f : α → β) :
    ∀ (l : List α) (x : α) (y : β),
    (((x :: l).getLast?).map f).getD y = ((l.getLast?).map f).getD (f x)
  | [], _, _ => rfl
  | z :: zs, x, y => by
    rw [List.getLast?_cons_cons]
    rw [lastMapGetD f zs z y, lastMapGetD f zs z (f x)]

theorem classifyStep_fst (env : Env) (s : MgrState) (d : Path)
    (acc : Path × List Path × List (List String)) (e : Path × Path) :
    (classifyStep env s d acc e).1 =
      if (e.2 == d && (s.upperDirSetting.isEmpty && (e.1.getLast? == some "overwrite"))) = true
      then e.1 else acc.1 := by
  unfold classifyStep
  by_cases h1 : (e.2 == d) = true <;>
    by_cases h2 : (s.upperDirSetting.isEmpty && (e.1.getLast? == some "overwrite")) = true <;>
    simp [h1, h2]

theorem classifyStep_lowers (env : Env) (s : MgrState) (d : Path)
    (acc : Path × List Path × List (List String)) (e : Path × Path) :
    (classifyStep env s d acc e).2.1 =
      acc.2.1 ++
        (if (e.2 == d && !(s.upperDirSetting.isEmpty && (e.1.getLast? == some "overwrite"))) = true
         then [e.1] else []) := by
  unfold classifyStep
  by_cases h1 : (e.2 == d) = true <;>
    by_cases h2 : (s.upperDirSetting.isEmpty && (e.1.getLast? == some "overwrite")) = true <;>
    simp [h1, h2]

theorem classifyGo_upper (env : Env) (s : MgrState) (d : Path)
    (l : List (Path × Path)) :
    ∀ acc, (classifyGo env s d l acc).1 =
      (((l.filter fun e => e.2 == d
          && (s.upperDirSetting.isEmpty && (e.1.getLast? == some "overwrite"))).getLast?).map
        (·.1)).getD acc.1 := by
  induction l with
  | nil => intro acc; simp [classifyGo]
  | cons e rest ih =>
    intro acc
    rw [classifyGo, ih, List.filter_cons]
    by_cases h : (e.2 == d && (s.upperDirSetting.isEmpty && (e.1.getLast? == some "overwrite"))) = true
    · rw [if_pos h, lastMapGetD, classifyStep_fst, if_pos h]
    · rw [if_neg h, classifyStep_fst, if_neg h]

theorem classifyGo_lowers (env : Env) (s : MgrState) (d : Path)
    (l : List (Path × Path)) :
    ∀ acc, (classifyGo env s d l acc).2.1 =
      acc.2.1 ++ (l.filterMap fun e =>
        if (e.2 == d && !(s.upperDirSetting.isEmpty && (e.1.getLast? == some "overwrite"))) = true
        then some e.1 else none) := by
  induction l with
  | nil => intro acc; simp [classifyGo]
  | cons e rest ih =>
    intro acc
    rw [classifyGo, ih, List.filterMap_cons]
    by_cases h : (e.2 == d && !(s.upperDirSetting.isEmpty && (e.1.getLast? == some "overwrite"))) = true
    · rw [if_pos h, classifyStep_lowers, if_pos h]
      simp
    · rw [if_neg h, classifyStep_lowers, if_neg h]
      simp

theorem lowerChainEq :
    ∀ (l : List Path) (acc : String) (t : Path),
    (l.foldl (fun a d => a ++ (pathStr d ++ ":")) acc) ++ pathStr t
      = acc ++ colonChain (l ++ [t])
  | [], acc, t => by simp [colonChain]
  | d :: rest, acc, t => by
    rw [List.foldl_cons, lowerChainEq rest (acc ++ (pathStr d ++ ":")) t]
    show acc ++ (pathStr d ++ ":") ++ colonChain (rest ++ [t])
      = acc ++ colonChain (d :: (rest ++ [t]))
    rw [colonChain]
    have hne : (rest ++ [t]).isEmpty = false := by
      cases rest <;> simp
    rw [hne]
    simp only [Bool.false_eq_true, if_false]
    rw [String.append_assoc, String.append_assoc]

theorem mkLowerDirsStr_eq_colonChain (m : OverlayFsData) :
    mkLowerDirsStr m = colonChain (m.lowerDirs ++ [m.target]) := by
  have := lowerChainEq m.lowerDirs "" m.target
  unfold mkLowerDirsStr
  rw [this]
  cases h : colonChain (m.lowerDirs ++ [m.target]) with
  | mk data => rfl

theorem mem_of_getLast?_eq {α : Type} {l : List α} {x : α}
    (h : l.getLast? = some x) : x ∈ l := by
  have hmem : x ∈ l.getLast? := by rw [h]; rfl
  obtain ⟨hne, hxe⟩ := List.mem_getLast?_eq_getLast hmem
  rw [hxe]
  exact List.getLast_mem hne

theorem overwrite_filter_ne_nil (s : MgrState) (d : Path) (x : Path × Path)
    (hx : x ∈ s.map.filter fun e => e.2 == d && (e.1.getLast? == some "overwrite")) :
    x.1 ≠ [] := by
  have h2 := (List.mem_filter.mp hx).2
  have hov : (x.1.getLast? == some "overwrite") = true := by
    simp only [Bool.and_eq_true] at h2
    exact h2.2
  intro hnil
  rw [hnil] at hov
  simp at hov

theorem lastOverwriteSource_ne_nil (s : MgrState) (d : Path) (u : Path)
    (h : lastOverwriteSource s d = some u) : u ≠ [] := by
  unfold lastOverwriteSource at h
  by_cases hu : s.upperDirSetting.isEmpty = true
  · rw [if_pos hu] at h
    cases hlast : (s.map.filter fun e =>
        e.2 == d && (e.1.getLast? == some "overwrite")).getLast? with
    | none => rw [hlast] at h; simp at h
    | some x =>
      rw [hlast] at h
      simp only [Option.map_some'] at h
      have hxne := overwrite_filter_ne_nil s d x (mem_of_getLast?_eq hlast)
      injection h with h'
      rw [← h']
      exact hxne
  · rw [if_neg hu] at h
    simp at h

/-! The claim theorems. -/

/-- C5 counterexample: with the explicit upper dir `/u` set through
`setUpperDir`, the planner's entry for `/d` adopts the target `/d` as its
upper dir — not the override `/u`, and not an empty (read-only) upper
dir, contradicting the claimed fallback chain. -/
theorem c5_override_not_used :
    (prepareMounts envBase stateWithUpperOverride).2.1.mounts.map (·.upperDir)
      = [[("d" : String)]] ∧
    stateWithUpperOverride.upperDirSetting = ["u"] ∧
    ([("d" : String)]) ≠ ["u"] := by decide

/-- C5 amended: the planner's upper dir for a destination is the last
registered source of that destination whose leaf name is literally
`overwrite` — considered only while no explicit upper dir is set — and in
every other case the destination itself; it is never left empty for a
non-root destination, and the value registered through `setUpperDir` is
never adopted (it only suppresses the `overwrite` promotion). -/
theorem c5_upper_dir_choice (env : Env) (s : MgrState) (d : Path) :
    (planForDest env s d).upperDir = (lastOverwriteSource s d).getD d ∧
    (d = [] ∨ (planForDest env s d).upperDir ≠ []) := by
  have hmain : (planForDest env s d).upperDir = (lastOverwriteSource s d).getD d := by
    unfold planForDest
    dsimp only
    rw [classifyGo_upper]
    unfold lastOverwriteSource
    by_cases hu : s.upperDirSetting.isEmpty = true
    · simp only [hu, Bool.true_and, if_true]
      cases hlast : (s.map.filter fun e =>
          e.2 == d && (e.1.getLast? == some "overwrite")).getLast? with
      | none => simp [hlast]
      | some x =>
        have hxne : x.1.isEmpty = false := by
          cases hxl : x.1 with
          | nil => exact absurd hxl (overwrite_filter_ne_nil s d x (mem_of_getLast?_eq hlast))
          | cons a as => rfl
        simp [hlast, hxne]
    · have hu' : s.upperDirSetting.isEmpty = false := by
        cases h : s.upperDirSetting.isEmpty
        · rfl
        · exact absurd h hu
      simp [hu']
  refine ⟨hmain, ?_⟩
  by_cases hd : d = []
  · exact Or.inl hd
  · refine Or.inr ?_
    rw [hmain]
    cases hlo : lastOverwriteSource s d with
    | none => simpa using hd
    | some u =>
      simpa using lastOverwriteSource_ne_nil s d u hlo

/-- C6 (code bug): for the suffix blacklist `[".bak"]` and the single file
`/s/sub/tmp.bak` below the lower dir `/s`, the planner records the whiteout
`".."` — `info.dir().relativeFilePath(srcPath)`, the path of the lower dir
relative to the entry's parent — instead of the claimed `"sub/tmp.bak"`;
and for the directory blacklist `[".git"]` with `/s/.git` on disk, the
planner records `".."` twice (the parent-name test fires on the `"."` and
`".."` entries listed inside `/s/.git`) while `".git"` itself is never
added. -/
theorem c6_relative_path_and_name_bug :
    (planForDest envBakFile stateBakBlacklist ["d"]).whiteout = [[".."]] ∧
    ([[(".." : String)]]) ≠ [["sub", "tmp.bak"]] ∧
    (planForDest envGitDir stateGitBlacklist ["d"]).whiteout = [[".."], [".."]] ∧
    ¬ [(".git" : String)] ∈ (planForDest envGitDir stateGitBlacklist ["d"]).whiteout := by
  decide

/-- C7 (code bug): `addFile("/src/config.ini", "/d")` with `/d` an existing
directory stores the destination `/d//src/config.ini` — the whole source
path appended to the destination — instead of the claimed
`/d/config.ini` (`destination / basename(source)`). -/
theorem c7_addfile_appends_full_source :
    (addFile envFileDest initialState ["src", "config.ini"] ["d"]).2.fileMap
      = [(["src", "config.ini"], ["d", "src", "config.ini"])] ∧
    (["d", "src", "config.ini"] : Path) ≠ ["d", "config.ini"] := by decide

/-- C8: the helper command's `lowerdir=` option is the colon-separated chain
of the sources classified as lower dirs for the destination, in reverse
registration order, with the destination appended as final element; the
`upperdir=`/`workdir=` options are present for a non-empty upper dir and
omitted exactly when the plan entry's upper dir is empty. -/
theorem c8_helper_command (env : Env) (s : MgrState) (d : Path)
    (m : OverlayFsData) (hm : m.upperDir ≠ []) :
    ("lowerdir=" ++ colonChain ((registeredLowers s d).reverse ++ [d]))
        ∈ mkMountArgs (planForDest env s d) ∧
    ("upperdir=" ++ pathStr m.upperDir) ∈ mkMountArgs m ∧
    mkMountArgs { m with upperDir := [] } =
      ["--debug", "-o", "lowerdir=" ++ colonChain (m.lowerDirs ++ [m.target]),
       pathStr m.target] := by
  refine ⟨?_, ?_, ?_⟩
  · have h1 : (planForDest env s d).lowerDirs = (registeredLowers s d).reverse := by
      unfold planForDest registeredLowers
      dsimp only
      rw [classifyGo_lowers]
      simp
    have ht : (planForDest env s d).target = d := rfl
    have h2 : mkLowerDirsStr (planForDest env s d)
        = colonChain ((registeredLowers s d).reverse ++ [d]) := by
      rw [mkLowerDirsStr_eq_colonChain, h1, ht]
    rw [← h2]
    simp [mkMountArgs]
  · have hie : m.upperDir.isEmpty = false := by
      cases h : m.upperDir with
      | nil => exact absurd h hm
      | cons a as => rfl
    simp [mkMountArgs, hie]
  · simp [mkMountArgs, mkLowerDirsStr_eq_colonChain]

/-- Concrete instantiation of the C8 theorem at the planner entry for `/d1`
of the two-destination configuration. -/
theorem c8_helper_command_witness :
    ("lowerdir=" ++ colonChain ((registeredLowers stateTwoDirs ["d1"]).reverse ++ [["d1"]]))
        ∈ mkMountArgs (planForDest envBase stateTwoDirs ["d1"]) ∧
    ("upperdir=" ++ pathStr (planForDest envBase stateTwoDirs ["d1"]).upperDir)
        ∈ mkMountArgs (planForDest envBase stateTwoDirs ["d1"]) ∧
    mkMountArgs { planForDest envBase stateTwoDirs ["d1"] with upperDir := [] } =
      ["--debug", "-o",
       "lowerdir=" ++ colonChain ((planForDest envBase stateTwoDirs ["d1"]).lowerDirs
          ++ [(planForDest envBase stateTwoDirs ["d1"]).target]),
       pathStr (planForDest envBase stateTwoDirs ["d1"]).target] :=
  c8_helper_command envBase stateTwoDirs ["d1"]
    (planForDest envBase stateTwoDirs ["d1"]) (by decide)

/-- C9: `mount()` when already mounted and `umount()` when not mounted are
no-op successes: both return true, change no state, invoke no helper and
touch no journal or plan entry. -/
theorem c9_noop_success (env : Env) (s : MgrState) :
    (s.mounted = true → mount env s = (true, s, [])) ∧
    (s.mounted = false → umount env s = (true, s, [])) := by
  constructor
  · intro h
    simp [mount, mountInternal, h]
  · intro h
    simp [umount, umountInternal, h]

/-- Concrete instantiation of the C9 theorem: `mount()` on the mounted
manager and `umount()` on the fresh manager. -/
theorem c9_noop_success_witness :
    mount envBase stateMounted = (true, stateMounted, []) ∧
    umount envBase initialState = (true, initialState, []) :=
  ⟨(c9_noop_success envBase stateMounted).1 (by decide),
   (c9_noop_success envBase initialState).2 (by decide)⟩

/-- C10: while some plan entry is flagged mounted but the manager flag is
false (a partial mount left by a failed attempt), every `mount()` call
returns false with no state change and no effect — no helper invocation, no
whiteout or symlink creation, no plan or journal append. -/
theorem c10_partial_mount_blocks (env : Env) (s : MgrState)
    (h1 : s.mounted = false) (h2 : isAnythingMounted s.mounts = true) :
    mount env s = (false, s, []) := by
  simp [mount, mountInternal, h1, h2]

/-- Concrete instantiation of the C10 theorem at the partial-mount state left
by the failing two-destination mount. -/
theorem c10_partial_mount_blocks_witness :
    mount envBase statePartialMount = (false, statePartialMount, []) :=
  c10_partial_mount_blocks envBase statePartialMount (by decide) (by decide)

/-- C2 counterexample: the failing two-destination `mount()` (the helper
exits non-zero on `/d2` after `/d1` was mounted) leaves the `/d1` plan entry
flagged mounted while `isMounted()` returns false — the claimed equivalence
fails in a reachable state. -/
theorem c2_partial_mount_disagrees :
    (mount envHelperFailsOnD2 stateTwoDirs).1 = false ∧
    isMounted statePartialMount = false ∧
    isAnythingMounted statePartialMount.mounts = true ∧
    statePartialMount.mounts.map (fun m => (m.target, m.mounted))
      = [(["d1"], true), (["d2"], false)] := by decide

/-- C3 counterexample: `dryrun()` of the single mapping `/s -> /d` creates a
directory on disk — the planner allocates the temporary workdir
`QTemporaryDir(upperDir % "_tmp_XXXXXX")` for the plan entry — so it is not
free of disk side effects. -/
theorem c3_dryrun_creates_workdir :
    (dryrun envBase stateOneDir).2 = [Effect.mkTempDir ["d_tmp_XXXXXX"]] ∧
    (dryrun envBase stateOneDir).2 ≠ [] := by decide

/-- C3 amended: every disk effect of `dryrun()` is the creation of a
temporary workdir (one per planned destination); `dryrun()` performs no
whiteout, symlink, rename, removal, or helper invocation. -/
theorem c3_dryrun_effects_only_tempdirs (env : Env) (s : MgrState) :
    (((dryrun env s).2).all Effect.isTempDirCreation) = true := by
  unfold dryrun
  split
  · rfl
  · dsimp only
    unfold prepareMounts
    dsimp only
    split
    · rfl
    · simp [List.all_map, Effect.isTempDirCreation]

/-- C4 counterexample: when `fusermount` fails on the mounted destination
`/d`, `umountInternal` returns false immediately: the remaining cleanup
steps do not run (the only effect is the failed `fusermount` invocation) and
the manager-level mounted flag is NOT cleared. -/
theorem c4_fusermount_failure_aborts :
    (umount envFusermountFails stateMounted).1 = false ∧
    (umount envFusermountFails stateMounted).2.1.mounted = true ∧
    (umount envFusermountFails stateMounted).2.2
      = [Effect.runFusermount ["d"]] := by decide

theorem umountLoop_ok (env : Env) (hf : ∀ p, env.fusermountOk p = true) :
    ∀ (l done : List OverlayFsData) (effs : List Effect),
    (umountLoop env l done effs).1 = true
  | [], _, _ => rfl
  | m :: rest, done, effs => by
    rw [umountLoop]
    by_cases h1 : (!m.mounted) = true
    · rw [if_pos h1]
      exact umountLoop_ok env hf rest (done ++ [m]) effs
    · rw [if_neg h1]
      have h2 : ¬((!(env.fusermountOk m.target)) = true) := by simp [hf m.target]
      rw [if_neg h2]
      exact umountLoop_ok env hf rest _ _

/-- C4 amended: a `fusermount` failure aborts the remaining cleanup and
leaves the mounted flag set (see the counterexample); when the manager is
mounted, some entry is flagged mounted and every `fusermount` invocation
succeeds, `umount()` returns true, clears the flag, clears the plan, and
clears all three rollback journals — regardless of whiteout-size check
failures, failed removals, or failed restores, which are logged and
skipped. -/
theorem c4_umount_clears_when_fusermount_ok (env : Env) (s : MgrState)
    (h1 : s.mounted = true) (h2 : isAnythingMounted s.mounts = true)
    (hf : ∀ p, env.fusermountOk p = true) :
    (umount env s).1 = true ∧
    (umount env s).2.1.mounted = false ∧
    (umount env s).2.1.mounts = [] ∧
    (umount env s).2.1.createdWhiteoutFiles = [] ∧
    (umount env s).2.1.createdDirectories = [] ∧
    (umount env s).2.1.createdSymlinks = [] := by
  unfold umount umountInternal
  have hc : ¬((!s.mounted || !isAnythingMounted s.mounts) = true) := by
    simp [h1, h2]
  rw [if_neg hc]
  have hne : ¬(s.mounts.isEmpty = true) := by
    cases hm : s.mounts with
    | nil => rw [hm] at h2; simp [isAnythingMounted] at h2
    | cons a as => simp [hm]
  rw [if_neg hne]
  dsimp only
  have hl : ¬((!(umountLoop env s.mounts [] []).1) = true) := by
    simp [umountLoop_ok env hf s.mounts [] []]
  rw [if_neg hl]
  simp [cleanup]

/-- Concrete instantiation of the C4 theorem: unmounting the mounted
single-destination manager in the benign environment. -/
theorem c4_umount_clears_witness :
    (umount envBase stateMounted).1 = true ∧
    (umount envBase stateMounted).2.1.mounted = false ∧
    (umount envBase stateMounted).2.1.mounts = [] ∧
    (umount envBase stateMounted).2.1.createdWhiteoutFiles = [] ∧
    (umount envBase stateMounted).2.1.createdDirectories = [] ∧
    (umount envBase stateMounted).2.1.createdSymlinks = [] :=
  c4_umount_clears_when_fusermount_ok envBase stateMounted (by decide) (by decide)
    (fun _ => rfl)

theorem bool_not_true {b : Bool} (h : ¬((!b) = true)) : b = true := by
  cases b
  · exact absurd rfl h
  · rfl

theorem all_not_reversal_append (l1 l2 : List Effect)
    (h1 : (l1.all fun e => !e.isReversal) = true)
    (h2 : (l2.all fun e => !e.isReversal) = true) :
    ((l1 ++ l2).all fun e => !e.isReversal) = true := by
  simp only [List.all_append, h1, h2, Bool.and_self]

theorem createDirsGo_no_reversal (env : Env) :
    ∀ (l : List Path) (st : MgrState) (effs : List Effect),
    (effs.all fun e => !e.isReversal) = true →
    (((createDirsGo env l st effs).2.2).all fun e => !e.isReversal) = true
  | [], _, _, h => h
  | seg :: rest, st, effs, h => by
    rw [createDirsGo]
    by_cases h1 : seg.isEmpty = true
    · rw [if_pos h1]; exact h
    · rw [if_neg h1]
      by_cases h2 : env.dirOnDisk seg = true
      · rw [if_pos h2]
        exact createDirsGo_no_reversal env rest st effs h
      · rw [if_neg h2]
        by_cases h3 : env.mkdirOk seg = true
        · rw [if_pos h3]
          exact createDirsGo_no_reversal env rest _ _
            (all_not_reversal_append _ _ h (by simp [Effect.isReversal]))
        · rw [if_neg h3]; exact h

theorem createDirectories_no_reversal (env : Env) (st : MgrState) (p : Path) :
    (((createDirectories env st p).2.2).all fun e => !e.isReversal) = true :=
  createDirsGo_no_reversal env _ st [] rfl

theorem createWhiteoutsGo_no_reversal (env : Env) (m : OverlayFsData) :
    ∀ (ws : List (List String)) (st : MgrState) (effs : List Effect),
    (effs.all fun e => !e.isReversal) = true →
    (((createWhiteoutsGo env m ws st effs).2.2).all fun e => !e.isReversal) = true
  | [], _, _, h => h
  | w :: rest, st, effs, h => by
    rw [createWhiteoutsGo]
    by_cases h1 : (!(createDirectories env st (m.upperDir ++ w).dropLast).1) = true
    · rw [if_pos h1]
      exact all_not_reversal_append _ _ h (createDirectories_no_reversal env st _)
    · rw [if_neg h1]
      by_cases h2 : env.mknodOk (m.upperDir ++ w) = true
      · rw [if_pos h2]
        exact createWhiteoutsGo_no_reversal env m rest _ _
          (all_not_reversal_append _ _
            (all_not_reversal_append _ _ h (createDirectories_no_reversal env st _))
            (by simp [Effect.isReversal]))
      · rw [if_neg h2]
        exact all_not_reversal_append _ _ h (createDirectories_no_reversal env st _)

theorem createWhiteouts_no_reversal (env : Env) (st : MgrState) (m : OverlayFsData) :
    (((createWhiteouts env st m).2.2).all fun e => !e.isReversal) = true := by
  unfold createWhiteouts
  split
  · rfl
  · exact createWhiteoutsGo_no_reversal env m m.whiteout st [] rfl

theorem createSymlinksGo_no_reversal (env : Env) :
    ∀ (l : List (Path × Path)) (st : MgrState) (effs : List Effect),
    (effs.all fun e => !e.isReversal) = true →
    (((createSymlinksGo env l st effs).2.2).all fun e => !e.isReversal) = true
  | [], _, _, h => h
  | (source, destination) :: rest, st, effs, h => by
    rw [createSymlinksGo]
    by_cases h1 : env.statExists destination = true
    · rw [if_pos h1]
      by_cases h2 : env.renameOk destination = true
      · rw [if_pos h2]
        by_cases h3 : env.symlinkOk destination = true
        · rw [if_pos h3]
          exact createSymlinksGo_no_reversal env rest _ _
            (all_not_reversal_append _ _ h (by simp [Effect.isReversal]))
        · rw [if_neg h3]
          exact all_not_reversal_append _ _ h (by simp [Effect.isReversal])
      · rw [if_neg h2]; exact h
    · rw [if_neg h1]
      by_cases h3 : env.symlinkOk destination = true
      · rw [if_pos h3]
        exact createSymlinksGo_no_reversal env rest _ _
          (all_not_reversal_append _ _ h (by simp [Effect.isReversal]))
      · rw [if_neg h3]; exact h

theorem createSymlinks_no_reversal (env : Env) (s : MgrState) :
    (((createSymlinks env s).2.2).all fun e => !e.isReversal) = true :=
  createSymlinksGo_no_reversal env s.fileMap s [] rfl

theorem prepareMounts_no_reversal (env : Env) (s : MgrState) :
    (((prepareMounts env s).2.2).all fun e => !e.isReversal) = true := by
  unfold prepareMounts
  dsimp only
  split
  · rfl
  · simp [List.all_map, Effect.isReversal]

theorem mountLoop_no_reversal (env : Env) :
    ∀ (l : List OverlayFsData) (st : MgrState) (done : List OverlayFsData)
      (effs : List Effect),
    (effs.all fun e => !e.isReversal) = true →
    (((mountLoop env l st done effs).2.2.2).all fun e => !e.isReversal) = true
  | [], _, _, _, h => h
  | m :: rest, st, done, effs, h => by
    rw [mountLoop]
    dsimp only
    by_cases h1 : (!(createWhiteouts env st m).1) = true
    · rw [if_pos h1]
      exact all_not_reversal_append _ _ h (createWhiteouts_no_reversal env st m)
    · rw [if_neg h1]
      by_cases h2 : env.helperOk m.target = true
      · rw [if_pos h2]
        exact mountLoop_no_reversal env rest _ _ _
          (all_not_reversal_append _ _
            (all_not_reversal_append _ _ h (createWhiteouts_no_reversal env st m))
            (by simp [Effect.isReversal]))
      · rw [if_neg h2]
        exact all_not_reversal_append _ _
          (all_not_reversal_append _ _ h (createWhiteouts_no_reversal env st m))
          (by simp [Effect.isReversal])

/-- C1 counterexample: in the failing mount of `/s -> /d` plus the file
mapping `/sf -> /df` (helper exits non-zero), `mount()` returns false while
the created symlink is still journalled, the plan entries are still stored,
and the effect trace ends at the failed helper invocation: the rename-aside
of `/df` and the symlink are never reversed — Cleanup is not invoked. -/
theorem c1_mount_failure_leaves_partial_state :
    (mount envMountFails stateDirAndFile).1 = false ∧
    (mount envMountFails stateDirAndFile).2.1.createdSymlinks = [["df"]] ∧
    (mount envMountFails stateDirAndFile).2.1.mounts ≠ [] ∧
    (mount envMountFails stateDirAndFile).2.2 =
      [Effect.mkTempDir ["d_tmp_XXXXXX"],
       Effect.renameFile ["df"] ["df.mo-renamed"],
       Effect.symlink ["sf"] ["df"],
       Effect.runHelper ["--debug", "-o", "upperdir=/d", "-o",
         "workdir=/d_tmp_XXXXXX", "-o", "lowerdir=/s:/d", "/d"]] := by decide

/-- C1 amended: when `mount()` fails partway through it aborts the remaining
work and returns false, but it does NOT invoke Cleanup: no execution of
`mount()` performs any reversal action (file or directory removal, restore
of a renamed original, or `fusermount` invocation), so the partial state of
a failed attempt — journalled whiteouts, directories, symlinks, renamed
originals, and mounted plan entries — persists until `umount()` or
destruction. -/
theorem c1_mount_performs_no_reversal (env : Env) (s : MgrState) :
    (((mount env s).2.2).all fun e => !e.isReversal) = true := by
  unfold mount mountInternal
  by_cases h1 : s.mounted = true
  · rw [if_pos h1]; rfl
  · rw [if_neg h1]
    by_cases h2 : isAnythingMounted s.mounts = true
    · rw [if_pos h2]; rfl
    · rw [if_neg h2]
      dsimp only
      by_cases h3 : (!(prepareMounts env s).1) = true
      · rw [if_pos h3]
        exact prepareMounts_no_reversal env s
      · rw [if_neg h3]
        by_cases h4 : (!(createSymlinks env (prepareMounts env s).2.1).1) = true
        · rw [if_pos h4]
          exact all_not_reversal_append _ _ (prepareMounts_no_reversal env s)
            (createSymlinks_no_reversal env _)
        · rw [if_neg h4]
          by_cases h5 : (!(mountLoop env
              (createSymlinks env (prepareMounts env s).2.1).2.1.mounts
              (createSymlinks env (prepareMounts env s).2.1).2.1 [] []).1) = true
          · rw [if_pos h5]
            exact all_not_reversal_append _ _
              (all_not_reversal_append _ _ (prepareMounts_no_reversal env s)
                (createSymlinks_no_reversal env _))
              (mountLoop_no_reversal env _ _ [] [] rfl)
          · rw [if_neg h5]
            exact all_not_reversal_append _ _
              (all_not_reversal_append _ _ (prepareMounts_no_reversal env s)
                (createSymlinks_no_reversal env _))
              (mountLoop_no_reversal env _ _ [] [] rfl)

theorem createDirsGo_mounted (env : Env) :
    ∀ (l : List Path) (st : MgrState) (effs : List Effect),
    ((createDirsGo env l st effs).2.1).mounted = st.mounted
  | [], _, _ => rfl
  | seg :: rest, st, effs => by
    rw [createDirsGo]
    by_cases h1 : seg.isEmpty = true
    · rw [if_pos h1]
    · rw [if_neg h1]
      by_cases h2 : env.dirOnDisk seg = true
      · rw [if_pos h2]
        exact createDirsGo_mounted env rest st effs
      · rw [if_neg h2]
        by_cases h3 : env.mkdirOk seg = true
        · rw [if_pos h3]
          exact createDirsGo_mounted env rest _ _
        · rw [if_neg h3]

theorem createWhiteoutsGo_mounted (env : Env) (m : OverlayFsData) :
    ∀ (ws : List (List String)) (st : MgrState) (effs : List Effect),
    ((createWhiteoutsGo env m ws st effs).2.1).mounted = st.mounted
  | [], _, _ => rfl
  | w :: rest, st, effs => by
    rw [createWhiteoutsGo]
    by_cases h1 : (!(createDirectories env st (m.upperDir ++ w).dropLast).1) = true
    · rw [if_pos h1]
      exact createDirsGo_mounted env _ st []
    · rw [if_neg h1]
      by_cases h2 : env.mknodOk (m.upperDir ++ w) = true
      · rw [if_pos h2]
        rw [createWhiteoutsGo_mounted env m rest _ _]
        exact createDirsGo_mounted env _ st []
      · rw [if_neg h2]
        exact createDirsGo_mounted env _ st []

theorem createWhiteouts_mounted (env : Env) (st : MgrState) (m : OverlayFsData) :
    ((createWhiteouts env st m).2.1).mounted = st.mounted := by
  unfold createWhiteouts
  split
  · rfl
  · exact createWhiteoutsGo_mounted env m m.whiteout st []

theorem createSymlinksGo_mounted (env : Env) :
    ∀ (l : List (Path × Path)) (st : MgrState) (effs : List Effect),
    ((createSymlinksGo env l st effs).2.1).mounted = st.mounted
  | [], _, _ => rfl
  | (source, destination) :: rest, st, effs => by
    rw [createSymlinksGo]
    by_cases h1 : env.statExists destination = true
    · rw [if_pos h1]
      by_cases h2 : env.renameOk destination = true
      · rw [if_pos h2]
        by_cases h3 : env.symlinkOk destination = true
        · rw [if_pos h3]
          exact createSymlinksGo_mounted env rest _ _
        · rw [if_neg h3]
      · rw [if_neg h2]
    · rw [if_neg h1]
      by_cases h3 : env.symlinkOk destination = true
      · rw [if_pos h3]
        exact createSymlinksGo_mounted env rest _ _
      · rw [if_neg h3]

theorem prepareMounts_mounted (env : Env) (s : MgrState) :
    ((prepareMounts env s).2.1).mounted = s.mounted := by
  unfold prepareMounts
  dsimp only
  split
  · rfl
  · rfl

theorem mountLoop_mounted (env : Env) :
    ∀ (l : List OverlayFsData) (st : MgrState) (done : List OverlayFsData)
      (effs : List Effect),
    ((mountLoop env l st done effs).2.1).mounted = st.mounted
  | [], _, _, _ => rfl
  | m :: rest, st, done, effs => by
    rw [mountLoop]
    dsimp only
    by_cases h1 : (!(createWhiteouts env st m).1) = true
    · rw [if_pos h1]
      exact createWhiteouts_mounted env st m
    · rw [if_neg h1]
      by_cases h2 : env.helperOk m.target = true
      · rw [if_pos h2]
        rw [mountLoop_mounted env rest _ _ _]
        exact createWhiteouts_mounted env st m
      · rw [if_neg h2]
        exact createWhiteouts_mounted env st m

theorem mountLoop_all_mounted (env : Env) :
    ∀ (l : List OverlayFsData) (st : MgrState) (done : List OverlayFsData)
      (effs : List Effect),
    (mountLoop env l st done effs).1 = true →
    (done.all (·.mounted)) = true →
    (((mountLoop env l st done effs).2.2.1).all (·.mounted)) = true
  | [], _, _, _, _, hdone => hdone
  | m :: rest, st, done, effs, h, hdone => by
    rw [mountLoop] at h ⊢
    dsimp only at h ⊢
    by_cases h1 : (!(createWhiteouts env st m).1) = true
    · rw [if_pos h1] at h ⊢
      exact absurd h (by simp)
    · rw [if_neg h1] at h ⊢
      by_cases h2 : env.helperOk m.target = true
      · rw [if_pos h2] at h ⊢
        exact mountLoop_all_mounted env rest _ _ _ h
          (by simp only [List.all_append, hdone, Bool.true_and]; rfl)
      · rw [if_neg h2] at h ⊢
        exact absurd h (by simp)

/-- C2 amended: a `mount()` that returns true sets `isMounted()` and flags
every plan entry mounted, and a failing `mount()` from a fully unmounted
state leaves `isMounted()` false — but the claimed equivalence itself is
false: a failed multi-destination mount leaves an entry flagged mounted
while `isMounted()` returns false (see the counterexample), and a mount of
a configuration with no destinations sets `isMounted()` with no entries
flagged. -/
theorem c2_flag_after_mount (env : Env) (s : MgrState)
    (h1 : s.mounted = false) (h2 : isAnythingMounted s.mounts = false) :
    ((mount env s).1 = true →
      isMounted (mount env s).2.1 = true ∧
      ((mount env s).2.1.mounts.all (·.mounted)) = true) ∧
    ((mount env s).1 = false → isMounted (mount env s).2.1 = false) := by
  unfold mount mountInternal isMounted
  have h1' : ¬(s.mounted = true) := by simp [h1]
  have h2' : ¬(isAnythingMounted s.mounts = true) := by simp [h2]
  rw [if_neg h1', if_neg h2']
  dsimp only
  by_cases h3 : (!(prepareMounts env s).1) = true
  · rw [if_pos h3]
    refine ⟨fun hc => Bool.noConfusion hc, fun _ => ?_⟩
    rw [prepareMounts_mounted env s]
    exact h1
  · rw [if_neg h3]
    by_cases h4 : (!(createSymlinks env (prepareMounts env s).2.1).1) = true
    · rw [if_pos h4]
      refine ⟨fun hc => Bool.noConfusion hc, fun _ => ?_⟩
      rw [show (createSymlinks env (prepareMounts env s).2.1).2.1.mounted
            = ((prepareMounts env s).2.1).mounted from
          createSymlinksGo_mounted env _ _ _]
      rw [prepareMounts_mounted env s]
      exact h1
    · rw [if_neg h4]
      by_cases h5 : (!(mountLoop env
          (createSymlinks env (prepareMounts env s).2.1).2.1.mounts
          (createSymlinks env (prepareMounts env s).2.1).2.1 [] []).1) = true
      · rw [if_pos h5]
        refine ⟨fun hc => Bool.noConfusion hc, fun _ => ?_⟩
        show (mountLoop env
          (createSymlinks env (prepareMounts env s).2.1).2.1.mounts
          (createSymlinks env (prepareMounts env s).2.1).2.1 [] []).2.1.mounted = false
        rw [mountLoop_mounted env _ _ _ _]
        rw [show (createSymlinks env (prepareMounts env s).2.1).2.1.mounted
              = ((prepareMounts env s).2.1).mounted from
            createSymlinksGo_mounted env _ _ _]
        rw [prepareMounts_mounted env s]
        exact h1
      · rw [if_neg h5]
        refine ⟨fun _ => ⟨rfl, ?_⟩, fun hc => Bool.noConfusion hc⟩
        exact mountLoop_all_mounted env _ _ [] [] (bool_not_true h5) rfl

/-- Concrete instantiation of the C2 theorem: the successful mount of the
single mapping `/s -> /d`. -/
theorem c2_flag_after_mount_witness :
    isMounted (mount envBase stateOneDir).2.1 = true ∧
    ((mount envBase stateOneDir).2.1.mounts.all (·.mounted)) = true :=
  (c2_flag_after_mount envBase stateOneDir (by decide) (by decide)).1 (by decide)

end OverlayFs
